import Mathlib

/-!
# cloudsqlv: inventory of Cloud SQL instances over all projects

A shallow embedding of `main.go`.  The program is one `main` function, so the
embedding splits it into the stages the source runs one after the other:

* `parseProjectIDs` : line 35, the text of `gcloud projects list` to project IDs;
* `applyLimit`      : lines 38-40, the `-limit` truncation;
* `collect`         : lines 56-78, the loop over projects and pages;
* `fileName`        : lines 81-82, the name of the CSV file;
* `report`          : lines 85-113, CSV or table output;
* `main`            : the stages in the order of the source, with the fatal exits.

A Go `string` is embedded as a Lean `String`, read as its sequence of code
points.  Everything the program does to the outside world (progress bar, log,
remote calls, file, table) is recorded, in program order, as a list of `Event`.
-/

namespace CloudSqlV

/-! ## Data model -/

/-- The two fields of `sqladmin.DatabaseInstance` the program reads. -/
structure DatabaseInstance where
  Name : String
  DatabaseVersion : String
deriving DecidableEq

/-- One page of the remote answer, `sqladmin.InstancesListResponse`. -/
structure InstancesListResponse where
  Items : List DatabaseInstance
deriving DecidableEq

/-- What one `client.Instances.List(projectID)` request does when `Pages` drives
it: the pages the remote side answers with, in order, and then either the end of
the listing (`err = none`) or the error of the request that failed. -/
structure InstancesListCall where
  pages : List InstancesListResponse
  err : Option String
deriving DecidableEq

/-- The calls the program makes to the outside world, in the order it makes them. -/
inductive Event where
  | barNew (max : Nat) (description : String)
  | barDescribe (label : String)
  | sleep (milliseconds : Nat)
  | instancesList (projectID : String)
  | logPrintf (msg : String)
  | barAdd (n : Nat)
  | logFatalf (msg : String)
  | osCreate (name : String)
  | csvWrite (record : List String)
  | csvFlush
  | fileClose
  | printf (text : String)
  | tableAppendHeader (row : List String)
  | tableAppendRow (row : List String)
  | tableRender
  | indexOutOfRange
deriving DecidableEq

/-- The `results` slice: `[][]string`. -/
abbrev ResultSet := List (List String)

/-! ## Lines 34-40: the project list -/

/-- Go `unicode.IsSpace`. -/
def isSpace (c : Char) : Bool :=
  let r := c.toNat
  if r ≤ 0xFF then
    r = 0x09 || r = 0x0A || r = 0x0B || r = 0x0C || r = 0x0D || r = 0x20 || r = 0x85 || r = 0xA0
  else
    r = 0x1680 || (0x2000 ≤ r && r ≤ 0x200A) || r = 0x2028 || r = 0x2029 || r = 0x202F
      || r = 0x205F || r = 0x3000

/-- Go `strings.TrimSpace` on the code points of a string: leading and
trailing white space removed. -/
def TrimSpace (s : List Char) : List Char :=
  ((s.dropWhile isSpace).reverse.dropWhile isSpace).reverse

/-- Go `strings.Index` for a one-character separator: position of its first
occurrence, `none` where Go returns `-1`. -/
def Index (s : List Char) (sep : Char) : Option Nat :=
  if s.indexOf sep < s.length then some (s.indexOf sep) else none

/-- Go `strings.Count` for a one-character separator. -/
def Count (s : List Char) (sep : Char) : Nat :=
  s.count sep

/-- The loop of Go `genSplit`: at most `n` cuts, each at the first separator left. -/
def genSplitLoop (sep : Char) : Nat → List Char → List (List Char)
  | 0, s => [s]
  | n + 1, s =>
    match Index s sep with
    | none => [s]
    | some m => s.take m :: genSplitLoop sep n (s.drop (m + 1))

/-- Go `strings.Split(s, sep)` for a one-character separator: `genSplit` with
`n = Count(s, sep) + 1` slots, hence `Count(s, sep)` cuts. -/
def Split (s : List Char) (sep : Char) : List (List Char) :=
  genSplitLoop sep (Count s sep) s

/-- Line 35: `strings.Split(strings.TrimSpace(string(output)), "\n")`. -/
def parseProjectIDs (output : String) : List String :=
  (Split (TrimSpace output.data) '\n').map String.mk

/-- Lines 38-40: `if *limit >= 0 && *limit < len(projectIDs)` then
`projectIDs[:*limit]`. -/
def applyLimit (limit : Int) (projectIDs : List String) : List String :=
  if limit ≥ 0 ∧ limit < (projectIDs.length : Int) then projectIDs.take limit.toNat
  else projectIDs

/-! ## Lines 56-78: the loop over projects and pages -/

/-- Lines 69-73, the page callback: one row per item of the page, appended to
`results`; it always returns `nil`. -/
def pageCallback (projectID : String) (results : ResultSet) (page : InstancesListResponse) :
    ResultSet × Option String :=
  (page.Items.foldl
    (fun acc inst => acc ++ [[projectID, inst.Name, inst.DatabaseVersion]]) results, none)

/-- The loop of the library method `Pages`: each page answered is handed to the
callback `f`; an error of the callback stops the loop and is returned; after the
last page the result is the error of the request, if one failed. -/
def pagesLoop {α : Type} (f : α → InstancesListResponse → α × Option String) :
    List InstancesListResponse → Option String → α → α × Option String
  | [], err, acc => (acc, err)
  | x :: rest, err, acc =>
    match f acc x with
    | (acc1, some e) => (acc1, some e)
    | (acc1, none) => pagesLoop f rest err acc1

/-- Library method `req.Pages(ctx, f)`. -/
def Pages {α : Type} (req : InstancesListCall)
    (f : α → InstancesListResponse → α × Option String) (acc : α) : α × Option String :=
  pagesLoop f req.pages req.err acc

/-- State of the loop of lines 65-78: the remote side, `results`, and the
events so far. -/
structure LoopState (σ : Type) where
  world : σ
  results : ResultSet
  trace : List Event

/-- Lines 66-77, the body of the loop for one project.  `api` is the remote
side: from its current state and the project ID, the behaviour of the request
and its next state. -/
def processProject {σ : Type} (api : σ → String → InstancesListCall × σ)
    (s : LoopState σ) (projectID : String) : LoopState σ :=
  let t1 := s.trace ++ [Event.barDescribe ("Processing project: " ++ projectID), Event.sleep 100]
  let (req, w) := api s.world projectID
  let t2 := t1 ++ [Event.instancesList projectID]
  match Pages req (pageCallback projectID) s.results with
  | (results, some err) =>
    { world := w, results := results,
      trace := t2 ++ [Event.logPrintf
        ("Failed to list instances for project " ++ projectID ++ ": " ++ err), Event.barAdd 1] }
  | (results, none) =>
    { world := w, results := results, trace := t2 ++ [Event.barAdd 1] }

/-- Lines 56-78: empty `results`, the progress bar created with
`len(projectIDs)`, then the loop over the project IDs. -/
def collect {σ : Type} (api : σ → String → InstancesListCall × σ) (w : σ)
    (projectIDs : List String) : LoopState σ :=
  projectIDs.foldl (processProject api)
    { world := w, results := [], trace := [Event.barNew projectIDs.length "Processing..."] }

/-! ## Lines 80-82: the name of the CSV file -/

/-- What the program reads of `time.Now()`: the year and the month (1 to 12). -/
structure Time where
  year : Int
  month : Nat
deriving DecidableEq

/-- Go `longMonthNames` of package `time`. -/
def longMonthNames : List String :=
  ["January", "February", "March", "April", "May", "June", "July", "August", "September",
   "October", "November", "December"]

/-- The decimal digit `'0' + byte(u)`. -/
def utod (u : Nat) : Char :=
  Char.ofNat (48 + u)

/-- Decimal digits of `u`, most significant first, in front of `acc`. -/
def decimalDigits : Nat → Nat → List Char → List Char
  | 0, _, acc => acc
  | fuel + 1, u, acc =>
    if u < 10 then utod u :: acc else decimalDigits fuel (u / 10) (utod (u % 10) :: acc)

/-- Go `appendInt(b, x, width)` of package `time`: a minus sign for a negative
`x`, then the decimal digits of its absolute value, padded with zeros to `width`. -/
def appendInt (x : Int) (width : Nat) : List Char :=
  let ds := decimalDigits (x.natAbs + 1) x.natAbs []
  (if x < 0 then ['-'] else []) ++ List.replicate (width - ds.length) '0' ++ ds

/-- Go `Month.String`. -/
def MonthString (m : Nat) : String :=
  if 1 ≤ m ∧ m ≤ 12 then longMonthNames.getD (m - 1) ""
  else "%!Month(" ++ String.mk (decimalDigits (m + 1) m []) ++ ")"

/-- Go `currentTime.Format("January2006")`: the layout is the chunk `January`
(long month name) followed by the chunk `2006` (year, width 4). -/
def formatJanuary2006 (t : Time) : String :=
  MonthString t.month ++ String.mk (appendInt t.year 4)

/-- Line 82: `fmt.Sprintf("cloudsql_version_%s.csv", currentTime.Format("January2006"))`. -/
def fileName (t : Time) : String :=
  "cloudsql_version_" ++ formatJanuary2006 t ++ ".csv"

/-! ## Lines 84-113: the report -/

/-- What is left of a run: the events in order, the final `results`, and the
exit code of the process (0 normal end, 1 after `log.Fatalf`, 2 after a panic). -/
structure Outcome where
  trace : List Event
  results : ResultSet
  exitCode : Nat
deriving DecidableEq

/-- The three column names, lines 96 and 108. -/
def header : List String :=
  ["Project ID", "Instance", "Database Version"]

/-- Lines 99-101: every row of `results` handed to the CSV writer. -/
def writeRows (results : ResultSet) (trace : List Event) : List Event :=
  results.foldl (fun t row => t ++ [Event.csvWrite row]) trace

/-- Lines 109-111: every row of `results` appended to the table as
`table.Row{v[0], v[1], v[2]}`; an index outside the row is a panic. -/
def appendRows : ResultSet → List Event → Except (List Event) (List Event)
  | [], t => Except.ok t
  | v :: rest, t =>
    match v[0]?, v[1]?, v[2]? with
    | some a, some b, some c => appendRows rest (t ++ [Event.tableAppendRow [a, b, c]])
    | _, _, _ => Except.error (t ++ [Event.indexOutOfRange])

/-- Lines 85-113.  `createErr` is the error of `os.Create`, if it fails.  The
deferred `writer.Flush()` and `f.Close()` run, in that order, when `main` returns. -/
def report (outputFormat : String) (name : String) (createErr : Option String)
    (results : ResultSet) : List Event × Nat :=
  if outputFormat = "csv" then
    match createErr with
    | some e =>
      ([Event.osCreate name, Event.logFatalf ("Failed to create CSV file: " ++ e)], 1)
    | none =>
      (writeRows results [Event.osCreate name, Event.csvWrite header]
        ++ [Event.printf ("Results written to " ++ name ++ "\n"), Event.csvFlush, Event.fileClose],
       0)
  else
    match appendRows results [Event.tableAppendHeader header] with
    | Except.ok t => (t ++ [Event.tableRender], 0)
    | Except.error t => (t, 2)

/-! ## The whole of `main` -/

/-- Everything `main` takes from outside. -/
structure Env (σ : Type) where
  outputFormat : String
  limit : Int
  gcloud : Except String String
  credentialsErr : Option String
  newServiceErr : Option String
  api : σ → String → InstancesListCall × σ
  world : σ
  now : Time
  createErr : Option String

/-- Function `main`, lines 21-114. -/
def main {σ : Type} (env : Env σ) : Outcome :=
  match env.gcloud with
  | Except.error e =>
    { trace := [Event.logFatalf ("Failed to list projects: " ++ e)], results := [], exitCode := 1 }
  | Except.ok output =>
    let projectIDs := applyLimit env.limit (parseProjectIDs output)
    match env.credentialsErr with
    | some e =>
      { trace := [Event.logFatalf ("Failed to find default credentials: " ++ e)],
        results := [], exitCode := 1 }
    | none =>
      match env.newServiceErr with
      | some e =>
        { trace := [Event.logFatalf ("Failed to create Cloud SQL Admin client: " ++ e)],
          results := [], exitCode := 1 }
      | none =>
        let s := collect env.api env.world projectIDs
        let out := report env.outputFormat (fileName env.now) env.createErr s.results
        { trace := s.trace ++ out.1, results := s.results, exitCode := out.2 }

/-! ## Vocabulary of the specification -/

/-- The rows of one page for a project: `[projectID, Name, DatabaseVersion]`
for each item, in the order of the page. -/
def rowsOfPage (projectID : String) (page : InstancesListResponse) : ResultSet :=
  page.Items.map (fun inst => [projectID, inst.Name, inst.DatabaseVersion])

/-- The rows of a sequence of pages of one project, in page order. -/
def rowsOfPages (projectID : String) (pages : List InstancesListResponse) : ResultSet :=
  pages.flatMap (rowsOfPage projectID)

/-- The behaviour of the request of each project, in project-list order, when
the remote side starts in state `w`. -/
def requests {σ : Type} (api : σ → String → InstancesListCall × σ) :
    σ → List String → List InstancesListCall
  | _, [] => []
  | w, p :: ps => (api w p).1 :: requests api (api w p).2 ps

/-- The state of the remote side after the requests of all the projects. -/
def worldAfter {σ : Type} (api : σ → String → InstancesListCall × σ) :
    σ → List String → σ
  | w, [] => w
  | w, p :: ps => worldAfter api (api w p).2 ps

/-- Number of instances in the pages a request delivered. -/
def deliveredCount (req : InstancesListCall) : Nat :=
  (req.pages.map (fun page => page.Items.length)).sum

/-- The project IDs of the `Instances.List` calls of a trace, in order. -/
def listCalls (trace : List Event) : List String :=
  trace.filterMap (fun e => match e with
    | Event.instancesList p => some p
    | _ => none)

/-- The steps of the `bar.Add` calls of a trace, in order. -/
def barAdds (trace : List Event) : List Nat :=
  trace.filterMap (fun e => match e with
    | Event.barAdd n => some n
    | _ => none)

/-- The records handed to the CSV writer in a trace, in order. -/
def csvRecords (trace : List Event) : List (List String) :=
  trace.filterMap (fun e => match e with
    | Event.csvWrite r => some r
    | _ => none)

/-- The rows appended to the table in a trace, in order. -/
def tableRows (trace : List Event) : List (List String) :=
  trace.filterMap (fun e => match e with
    | Event.tableAppendRow r => some r
    | _ => none)

/-- The header rows given to the table in a trace. -/
def tableHeaders (trace : List Event) : List (List String) :=
  trace.filterMap (fun e => match e with
    | Event.tableAppendHeader r => some r
    | _ => none)

/-- The file names passed to `os.Create` in a trace. -/
def createdFiles (trace : List Event) : List String :=
  trace.filterMap (fun e => match e with
    | Event.osCreate n => some n
    | _ => none)

/-- The messages of `log.Fatalf` in a trace. -/
def fatalMessages (trace : List Event) : List String :=
  trace.filterMap (fun e => match e with
    | Event.logFatalf m => some m
    | _ => none)

/-- A trace without its `log.Printf` events. -/
def withoutLog (trace : List Event) : List Event :=
  trace.filter (fun e => match e with
    | Event.logPrintf _ => false
    | _ => true)

/-- The remote side `api` with every failure removed: the same pages, the same
next state, and no error. -/
def withoutFailure {σ : Type} (api : σ → String → InstancesListCall × σ) :
    σ → String → InstancesListCall × σ :=
  fun w p => ({ pages := (api w p).1.pages, err := none }, (api w p).2)

/-- The events of one project, in order: label, pause, the request, the log
line when the request failed, one step of the bar. -/
def projectEvents (projectID : String) (req : InstancesListCall) : List Event :=
  [Event.barDescribe ("Processing project: " ++ projectID), Event.sleep 100,
    Event.instancesList projectID]
  ++ (match req.err with
      | some err => [Event.logPrintf
          ("Failed to list instances for project " ++ projectID ++ ": " ++ err)]
      | none => [])
  ++ [Event.barAdd 1]

/-- The rows of all projects: project-list order, then page order, then the
order within the page. -/
def allRows (projectIDs : List String) (reqs : List InstancesListCall) : ResultSet :=
  (projectIDs.zip reqs).flatMap (fun pr => rowsOfPages pr.1 pr.2.pages)

/-- The events of all projects, in project-list order. -/
def allEvents (projectIDs : List String) (reqs : List InstancesListCall) : List Event :=
  (projectIDs.zip reqs).flatMap (fun pr => projectEvents pr.1 pr.2)

/-! ## Scenarios -/

/-- Remote side of the scenario of the specification: `p1` answers two pages of
one instance each, `p2` fails on its first request, `p3` answers one empty page. -/
def scenarioApi : Unit → String → InstancesListCall × Unit :=
  fun _ p =>
    if p = "p1" then
      ({ pages := [{ Items := [{ Name := "db-a", DatabaseVersion := "MYSQL_8_0" }] },
                   { Items := [{ Name := "db-b", DatabaseVersion := "POSTGRES_15" }] }],
         err := none }, ())
    else if p = "p2" then ({ pages := [], err := some "403" }, ())
    else ({ pages := [{ Items := [] }], err := none }, ())

/-- Remote side where project `q` answers one page with one instance and then
fails on the request of the second page; every other project has no instance. -/
def midFailureApi : Unit → String → InstancesListCall × Unit :=
  fun _ p =>
    if p = "q" then
      ({ pages := [{ Items := [{ Name := "db-a", DatabaseVersion := "MYSQL_8_0" }] }],
         err := some "quota" }, ())
    else ({ pages := [{ Items := [] }], err := none }, ())

/-- Sum of the instance counts returned over the requests that succeeded. -/
def succeededCount (reqs : List InstancesListCall) : Nat :=
  ((reqs.filter (fun r => r.err = none)).map deliveredCount).sum

/-! ## The loop in closed form -/

theorem foldl_append_singleton {α β : Type} (f : α → β) (l : List α) (init : List β) :
    l.foldl (fun acc x => acc ++ [f x]) init = init ++ l.map f := by
  induction l generalizing init with
  | nil => simp
  | cons x xs ih => simp [ih]

theorem pageCallback_eq (p : String) (rs : ResultSet) (page : InstancesListResponse) :
    pageCallback p rs page = (rs ++ rowsOfPage p page, none) := by
  unfold pageCallback rowsOfPage
  rw [foldl_append_singleton (fun inst : DatabaseInstance => [p, inst.Name, inst.DatabaseVersion])]

theorem pagesLoop_pageCallback (p : String) (pages : List InstancesListResponse)
    (err : Option String) (rs : ResultSet) :
    pagesLoop (pageCallback p) pages err rs = (rs ++ rowsOfPages p pages, err) := by
  induction pages generalizing rs with
  | nil => simp [pagesLoop, rowsOfPages]
  | cons x xs ih =>
    simp only [pagesLoop, pageCallback_eq, ih]
    simp [rowsOfPages]

theorem processProject_eq {σ : Type} (api : σ → String → InstancesListCall × σ)
    (s : LoopState σ) (p : String) :
    processProject api s p =
      { world := (api s.world p).2,
        results := s.results ++ rowsOfPages p (api s.world p).1.pages,
        trace := s.trace ++ projectEvents p (api s.world p).1 } := by
  unfold processProject Pages projectEvents
  rcases h : api s.world p with ⟨req, w⟩
  simp only [pagesLoop_pageCallback]
  cases h1 : req.err <;> simp

theorem foldl_processProject {σ : Type} (api : σ → String → InstancesListCall × σ)
    (ps : List String) (s : LoopState σ) :
    ps.foldl (processProject api) s =
      { world := worldAfter api s.world ps,
        results := s.results ++ allRows ps (requests api s.world ps),
        trace := s.trace ++ allEvents ps (requests api s.world ps) } := by
  induction ps generalizing s with
  | nil => simp [worldAfter, allRows, allEvents, requests]
  | cons p ps ih =>
    rw [List.foldl_cons, ih, processProject_eq]
    simp [worldAfter, allRows, allEvents, requests, List.append_assoc]

theorem collect_eq {σ : Type} (api : σ → String → InstancesListCall × σ) (w : σ)
    (ps : List String) :
    collect api w ps =
      { world := worldAfter api w ps,
        results := allRows ps (requests api w ps),
        trace := Event.barNew ps.length "Processing..." :: allEvents ps (requests api w ps) } := by
  unfold collect
  rw [foldl_processProject]
  simp

theorem requests_length {σ : Type} (api : σ → String → InstancesListCall × σ) (w : σ)
    (ps : List String) : (requests api w ps).length = ps.length := by
  induction ps generalizing w with
  | nil => rfl
  | cons p ps ih => simp [requests, ih]

/-- When the listing command, the credentials and the client all succeed, a run
of `main` is the loop over the limited project list followed by the report of
its `results`, under the file name of the current date. -/
theorem main_eq_collect_report {σ : Type} (env : Env σ) (output : String)
    (hg : env.gcloud = Except.ok output) (hc : env.credentialsErr = none)
    (hs : env.newServiceErr = none) :
    main env =
      { trace :=
          (collect env.api env.world (applyLimit env.limit (parseProjectIDs output))).trace
            ++ (report env.outputFormat (fileName env.now) env.createErr
                (collect env.api env.world
                  (applyLimit env.limit (parseProjectIDs output))).results).1,
        results :=
          (collect env.api env.world (applyLimit env.limit (parseProjectIDs output))).results,
        exitCode :=
          (report env.outputFormat (fileName env.now) env.createErr
            (collect env.api env.world
              (applyLimit env.limit (parseProjectIDs output))).results).2 } := by
  unfold main
  simp only [hg, hc, hs]

/-! ## Theorems on the loop -/

theorem collect_world {σ : Type} (api : σ → String → InstancesListCall × σ) (w : σ)
    (ps : List String) : (collect api w ps).world = worldAfter api w ps := by
  rw [collect_eq]

theorem requests_append {σ : Type} (api : σ → String → InstancesListCall × σ) (w : σ)
    (ps qs : List String) :
    requests api w (ps ++ qs) = requests api w ps ++ requests api (worldAfter api w ps) qs := by
  induction ps generalizing w with
  | nil => rfl
  | cons p ps ih => simp [requests, worldAfter, ih]

theorem allRows_append (ps qs : List String) (rs ts : List InstancesListCall)
    (h : rs.length = ps.length) :
    allRows (ps ++ qs) (rs ++ ts) = allRows ps rs ++ allRows qs ts := by
  unfold allRows
  rw [List.zip_append h.symm, List.flatMap_append]

theorem allEvents_append (ps qs : List String) (rs ts : List InstancesListCall)
    (h : rs.length = ps.length) :
    allEvents (ps ++ qs) (rs ++ ts) = allEvents ps rs ++ allEvents qs ts := by
  unfold allEvents
  rw [List.zip_append h.symm, List.flatMap_append]

theorem rowsOfPages_length (p : String) (pages : List InstancesListResponse) :
    (rowsOfPages p pages).length = deliveredCount { pages := pages, err := none } := by
  induction pages with
  | nil => rfl
  | cons x xs ih =>
    simp only [rowsOfPages, deliveredCount, List.flatMap_cons, List.length_append, List.map_cons,
      List.sum_cons] at ih ⊢
    rw [ih]
    simp [rowsOfPage]

theorem allRows_length (ps : List String) (reqs : List InstancesListCall)
    (h : reqs.length = ps.length) :
    (allRows ps reqs).length = (reqs.map deliveredCount).sum := by
  induction ps generalizing reqs with
  | nil =>
    cases reqs with
    | nil => rfl
    | cons r rs => simp at h
  | cons p ps ih =>
    cases reqs with
    | nil => simp at h
    | cons r rs =>
      have h1 : rs.length = ps.length := by simpa using h
      have h2 := ih rs h1
      simp only [allRows, List.zip_cons_cons, List.flatMap_cons, List.length_append, List.map_cons,
        List.sum_cons] at h2 ⊢
      rw [h2, rowsOfPages_length]
      rfl

/-- C1: the final `results` is the concatenation, in project-list order, then
page-arrival order, then within-page order, of the rows
`[projectID, instance.Name, instance.DatabaseVersion]` of the pages delivered to
the callback; nothing is reordered, dropped or deduplicated. -/
theorem collect_results_concat {σ : Type} (api : σ → String → InstancesListCall × σ) (w : σ)
    (ps : List String) :
    (collect api w ps).results =
      (ps.zip (requests api w ps)).flatMap (fun pr =>
        pr.2.pages.flatMap (fun page =>
          page.Items.map (fun inst => [pr.1, inst.Name, inst.DatabaseVersion]))) := by
  rw [collect_eq]
  rfl

/-- C1, the scenario of the specification: projects `p1`, `p2`, `p3`, where
`p1` delivers two instances over two pages, `p2` fails outright and `p3`
delivers none, give exactly the two rows of `p1`. -/
theorem collect_results_concat_scenario :
    (collect scenarioApi () ["p1", "p2", "p3"]).results =
      [["p1", "db-a", "MYSQL_8_0"], ["p1", "db-b", "POSTGRES_15"]] := by
  rw [collect_results_concat]
  decide

theorem sum_deliveredCount_of_outright (reqs : List InstancesListCall)
    (h : ∀ r ∈ reqs, r.err ≠ none → r.pages = []) :
    (reqs.map deliveredCount).sum = succeededCount reqs := by
  induction reqs with
  | nil => rfl
  | cons r rs ih =>
    have h1 : ∀ x ∈ rs, x.err ≠ none → x.pages = [] := fun x hx => h x (List.mem_cons_of_mem r hx)
    have h2 := ih h1
    unfold succeededCount at h2 ⊢
    by_cases hr : r.err = none
    · simp [List.filter_cons, hr, h2]
    · have h3 : r.pages = [] := h r (List.mem_cons_self r rs) hr
      simp [List.filter_cons, hr, h2, deliveredCount, h3]

/-- C2, as stated, fails: project `q` delivers one page with one instance and
then fails; its retrieval did not succeed, so the sum over the succeeded
projects is 0, yet its row is in `results`. -/
theorem failed_project_rows_counterexample :
    requests midFailureApi () ["q"] =
        [{ pages := [{ Items := [{ Name := "db-a", DatabaseVersion := "MYSQL_8_0" }] }],
           err := some "quota" }]
      ∧ succeededCount (requests midFailureApi () ["q"]) = 0
      ∧ (collect midFailureApi () ["q"]).results = [["q", "db-a", "MYSQL_8_0"]]
      ∧ (collect midFailureApi () ["q"]).results.length
          ≠ succeededCount (requests midFailureApi () ["q"]) := by
  decide

/-- C2, amended: the length of `results` is the sum, over all processed
projects, of the instance counts of the pages delivered to the callback (for a
failed retrieval, the pages before the failing request).  When every failed
retrieval failed before its first page, the failed projects contribute no row
at their position and the length is the sum over the succeeded projects; when
every project fails that way, `results` is empty. -/
theorem results_length_delivered {σ : Type} (api : σ → String → InstancesListCall × σ) (w : σ)
    (ps : List String) :
    (collect api w ps).results.length = ((requests api w ps).map deliveredCount).sum
      ∧ ((∀ r ∈ requests api w ps, r.err ≠ none → r.pages = []) →
          (collect api w ps).results.length = succeededCount (requests api w ps)
          ∧ (collect api w ps).results =
              (ps.zip (requests api w ps)).flatMap (fun pr =>
                if pr.2.err = none then rowsOfPages pr.1 pr.2.pages else []))
      ∧ ((∀ r ∈ requests api w ps, r.err ≠ none ∧ r.pages = []) →
          (collect api w ps).results = []) := by
  have hlen : (collect api w ps).results.length = ((requests api w ps).map deliveredCount).sum := by
    rw [collect_eq]
    exact allRows_length ps _ (requests_length api w ps)
  refine ⟨hlen, ?_, ?_⟩
  · intro h
    refine ⟨by rw [hlen, sum_deliveredCount_of_outright _ h], ?_⟩
    rw [collect_eq]
    show allRows ps (requests api w ps) = _
    unfold allRows
    apply List.flatMap_congr
    intro pr hpr
    by_cases hr : pr.2.err = none
    · simp [hr]
    · have h3 : pr.2.pages = [] := h pr.2 (List.of_mem_zip hpr).2 hr
      simp [hr, h3, rowsOfPages]
  · intro h
    rw [collect_eq]
    show allRows ps (requests api w ps) = []
    unfold allRows
    rw [List.flatMap_eq_nil_iff]
    intro pr hpr
    have h3 : pr.2.pages = [] := (h pr.2 (List.of_mem_zip hpr).2).2
    simp [h3, rowsOfPages]

/-- C2, amended, at the scenario of the specification: `p2` fails before its
first page, so the two rows of `p1` are all the rows and their number is the
sum over the succeeded projects. -/
theorem results_length_delivered_witness :
    (collect scenarioApi () ["p1", "p2", "p3"]).results.length = 2
      ∧ succeededCount (requests scenarioApi () ["p1", "p2", "p3"]) = 2
      ∧ (collect scenarioApi () ["p1", "p2", "p3"]).results.length
          = succeededCount (requests scenarioApi () ["p1", "p2", "p3"])
      ∧ (collect scenarioApi () ["p2", "p2"]).results = [] :=
  ⟨by decide, by decide,
   ((results_length_delivered scenarioApi () ["p1", "p2", "p3"]).2.1 (by decide)).1,
   (results_length_delivered scenarioApi () ["p2", "p2"]).2.2 (by decide)⟩

theorem worldAfter_withoutFailure {σ : Type} (api : σ → String → InstancesListCall × σ) (w : σ)
    (ps : List String) : worldAfter (withoutFailure api) w ps = worldAfter api w ps := by
  induction ps generalizing w with
  | nil => rfl
  | cons p ps ih => simp [worldAfter, withoutFailure, ih]

theorem requests_withoutFailure {σ : Type} (api : σ → String → InstancesListCall × σ) (w : σ)
    (ps : List String) :
    requests (withoutFailure api) w ps =
      (requests api w ps).map (fun r => { pages := r.pages, err := none }) := by
  induction ps generalizing w with
  | nil => rfl
  | cons p ps ih => simp [requests, withoutFailure, ih]

theorem allRows_map_err (ps : List String) (reqs : List InstancesListCall) :
    allRows ps (reqs.map (fun r => { pages := r.pages, err := none })) = allRows ps reqs := by
  induction ps generalizing reqs with
  | nil => simp [allRows]
  | cons p ps ih =>
    cases reqs with
    | nil => simp [allRows]
    | cons r rs =>
      have h := ih rs
      simp only [allRows, List.map_cons, List.zip_cons_cons, List.flatMap_cons] at h ⊢
      rw [h]

theorem withoutLog_append (a b : List Event) :
    withoutLog (a ++ b) = withoutLog a ++ withoutLog b := by
  simp [withoutLog]

theorem withoutLog_projectEvents (p : String) (r : InstancesListCall) :
    withoutLog (projectEvents p r) = projectEvents p { pages := r.pages, err := none } := by
  cases h : r.err <;> simp [projectEvents, withoutLog, h]

theorem withoutLog_allEvents (ps : List String) (reqs : List InstancesListCall) :
    withoutLog (allEvents ps reqs) =
      allEvents ps (reqs.map (fun r => { pages := r.pages, err := none })) := by
  induction ps generalizing reqs with
  | nil => simp [allEvents, withoutLog]
  | cons p ps ih =>
    cases reqs with
    | nil => simp [allEvents, withoutLog]
    | cons r rs =>
      have h := ih rs
      simp only [allEvents, List.map_cons, List.zip_cons_cons, List.flatMap_cons] at h ⊢
      rw [withoutLog_append, h, withoutLog_projectEvents]

theorem listCalls_append (a b : List Event) :
    listCalls (a ++ b) = listCalls a ++ listCalls b := by
  simp [listCalls]

theorem listCalls_projectEvents (p : String) (r : InstancesListCall) :
    listCalls (projectEvents p r) = [p] := by
  cases h : r.err <;> simp [projectEvents, listCalls, h]

theorem listCalls_allEvents (ps : List String) (reqs : List InstancesListCall)
    (h : reqs.length = ps.length) : listCalls (allEvents ps reqs) = ps := by
  induction ps generalizing reqs with
  | nil => simp [allEvents, listCalls]
  | cons p ps ih =>
    cases reqs with
    | nil => simp at h
    | cons r rs =>
      have h1 := ih rs (by simpa using h)
      simp only [allEvents, List.zip_cons_cons, List.flatMap_cons] at h1 ⊢
      rw [listCalls_append, h1, listCalls_projectEvents]
      rfl

theorem listCalls_collect {σ : Type} (api : σ → String → InstancesListCall × σ) (w : σ)
    (ps : List String) : listCalls (collect api w ps).trace = ps := by
  rw [collect_eq]
  show listCalls ([Event.barNew ps.length "Processing..."] ++ allEvents ps (requests api w ps)) = ps
  rw [listCalls_append, listCalls_allEvents ps _ (requests_length api w ps)]
  rfl

/-- C3: when the retrieval of project `p` fails with error `e` after some pages
were delivered, the rows of those pages stay in `results`, between the rows of
the projects before `p` and the rows the later projects contribute when run
from the state the remote side is left in; the failure is logged; every project
of the list is requested; and the run differs from the run against the same
remote side without any failure only by its log lines. -/
theorem failure_is_isolated {σ : Type} (api : σ → String → InstancesListCall × σ) (w : σ)
    (pre : List String) (p : String) (post : List String) (e : String)
    (h : (api (worldAfter api w pre) p).1.err = some e) :
    (collect api w (pre ++ p :: post)).results =
        (collect api w pre).results
          ++ rowsOfPages p (api (worldAfter api w pre) p).1.pages
          ++ (collect api (api (worldAfter api w pre) p).2 post).results
      ∧ Event.logPrintf ("Failed to list instances for project " ++ p ++ ": " ++ e)
          ∈ (collect api w (pre ++ p :: post)).trace
      ∧ listCalls (collect api w (pre ++ p :: post)).trace = pre ++ p :: post
      ∧ (collect api w (pre ++ p :: post)).results
          = (collect (withoutFailure api) w (pre ++ p :: post)).results
      ∧ withoutLog (collect api w (pre ++ p :: post)).trace
          = (collect (withoutFailure api) w (pre ++ p :: post)).trace := by
  refine ⟨?_, ?_, listCalls_collect api w _, ?_, ?_⟩
  · simp only [collect_eq, requests_append, requests]
    rw [allRows_append _ _ _ _ (requests_length api w pre)]
    simp [allRows, List.append_assoc]
  · simp only [collect_eq, requests_append, requests]
    rw [allEvents_append _ _ _ _ (requests_length api w pre)]
    simp [allEvents, projectEvents, h]
  · simp only [collect_eq, requests_withoutFailure, allRows_map_err]
  · simp only [collect_eq, requests_withoutFailure]
    have hcons : ∀ (x : Event) (l : List Event),
        withoutLog (x :: l) = withoutLog [x] ++ withoutLog l := fun x l => withoutLog_append [x] l
    rw [hcons, withoutLog_allEvents]
    rfl

/-- C3 at a concrete run: project `q` fails after one page, between two other
projects; its row stays and all three projects are requested. -/
theorem failure_is_isolated_witness :
    (midFailureApi (worldAfter midFailureApi () ["a"]) "q").1.err = some "quota"
      ∧ (collect midFailureApi () ["a", "q", "b"]).results = [["q", "db-a", "MYSQL_8_0"]]
      ∧ listCalls (collect midFailureApi () ["a", "q", "b"]).trace = ["a", "q", "b"] :=
  ⟨by decide,
   (failure_is_isolated midFailureApi () ["a"] "q" ["b"] "quota" (by decide)).1.trans (by decide),
   (failure_is_isolated midFailureApi () ["a"] "q" ["b"] "quota" (by decide)).2.2.1⟩

theorem barAdds_append (a b : List Event) : barAdds (a ++ b) = barAdds a ++ barAdds b := by
  simp [barAdds]

theorem barAdds_projectEvents (p : String) (r : InstancesListCall) :
    barAdds (projectEvents p r) = [1] := by
  cases h : r.err <;> simp [projectEvents, barAdds, h]

theorem barAdds_allEvents (ps : List String) (reqs : List InstancesListCall)
    (h : reqs.length = ps.length) : barAdds (allEvents ps reqs) = List.replicate ps.length 1 := by
  induction ps generalizing reqs with
  | nil => simp [allEvents, barAdds]
  | cons p ps ih =>
    cases reqs with
    | nil => simp at h
    | cons r rs =>
      have h1 := ih rs (by simpa using h)
      simp only [allEvents, List.zip_cons_cons, List.flatMap_cons] at h1 ⊢
      rw [barAdds_append, h1, barAdds_projectEvents]
      rfl

/-- C7: the bar is created with the length of the processed list as its total;
then, for each project in order, the label is set, the pause is taken, the
request runs to its end or its failure, the failure (if any) is logged, and
only then the bar advances by one.  So the bar advances exactly once per
processed project, succeeded or failed, and the number of steps is the total. -/
theorem progress_one_step_per_project {σ : Type} (api : σ → String → InstancesListCall × σ)
    (w : σ) (ps : List String) :
    (collect api w ps).trace =
        Event.barNew ps.length "Processing..." ::
          (ps.zip (requests api w ps)).flatMap (fun pr =>
            [Event.barDescribe ("Processing project: " ++ pr.1), Event.sleep 100,
              Event.instancesList pr.1]
            ++ (match pr.2.err with
                | some err => [Event.logPrintf
                    ("Failed to list instances for project " ++ pr.1 ++ ": " ++ err)]
                | none => [])
            ++ [Event.barAdd 1])
      ∧ barAdds (collect api w ps).trace = List.replicate ps.length 1
      ∧ (barAdds (collect api w ps).trace).length = ps.length := by
  have hadds : barAdds (collect api w ps).trace = List.replicate ps.length 1 := by
    rw [collect_eq]
    have hcons : ∀ (x : Event) (l : List Event),
        barAdds (x :: l) = barAdds [x] ++ barAdds l := fun x l => barAdds_append [x] l
    rw [hcons, barAdds_allEvents ps _ (requests_length api w ps)]
    rfl
  refine ⟨?_, hadds, ?_⟩
  · rw [collect_eq]
    rfl
  · rw [hadds, List.length_replicate]

theorem take_min_length {α : Type} (L : List α) (n : Nat) :
    L.take (min n L.length) = L.take n := by
  rcases Nat.le_total n L.length with h | h
  · rw [Nat.min_eq_left h]
  · rw [Nat.min_eq_right h, List.take_length, List.take_of_length_le h]

/-- C4: for a limit `N ≥ 0` the processed list is the first `min N (length L)`
entries of `L` in their order (so `N ≥ length L` leaves `L` as it is, and
`N = 0` leaves no project: no request is made and `results` is empty); for
`N < 0` the processed list is `L`. -/
theorem applyLimit_spec (L : List String) (N : Int) :
    (0 ≤ N → applyLimit N L = L.take (min N.toNat L.length))
      ∧ ((L.length : Int) ≤ N → applyLimit N L = L)
      ∧ (N = 0 → applyLimit N L = []
          ∧ ∀ (σ : Type) (api : σ → String → InstancesListCall × σ) (w : σ),
              (collect api w (applyLimit N L)).results = []
              ∧ listCalls (collect api w (applyLimit N L)).trace = [])
      ∧ (N < 0 → applyLimit N L = L) := by
  have hpos : 0 ≤ N → applyLimit N L = L.take (min N.toNat L.length) := by
    intro h0
    rw [take_min_length]
    unfold applyLimit
    split
    · rfl
    · rename_i hc
      have hle : L.length ≤ N.toNat := by omega
      rw [List.take_of_length_le hle]
  refine ⟨hpos, ?_, ?_, ?_⟩
  · intro h
    unfold applyLimit
    rw [if_neg (by omega)]
  · intro h
    have h0 : applyLimit N L = [] := by
      rw [hpos (by omega), h]
      simp
    refine ⟨h0, ?_⟩
    intro σ api w
    rw [h0]
    exact ⟨rfl, rfl⟩
  · intro h
    unfold applyLimit
    rw [if_neg (by omega)]

/-- C4 at concrete limits on the list `a, b, c`: 2 keeps the first two, 5 and
-1 keep all, 0 keeps none. -/
theorem applyLimit_spec_witness :
    applyLimit 2 ["a", "b", "c"] = ["a", "b"]
      ∧ applyLimit 5 ["a", "b", "c"] = ["a", "b", "c"]
      ∧ applyLimit 0 ["a", "b", "c"] = []
      ∧ applyLimit (-1) ["a", "b", "c"] = ["a", "b", "c"] :=
  ⟨((applyLimit_spec ["a", "b", "c"] 2).1 (by decide)).trans (by decide),
   (applyLimit_spec ["a", "b", "c"] 5).2.1 (by decide),
   ((applyLimit_spec ["a", "b", "c"] 0).2.2.1 rfl).1,
   (applyLimit_spec ["a", "b", "c"] (-1)).2.2.2 (by decide)⟩

/-! ## Theorems on the report -/

theorem writeRows_eq (rs : ResultSet) (t : List Event) :
    writeRows rs t = t ++ rs.map Event.csvWrite := by
  unfold writeRows
  exact foldl_append_singleton (fun row => Event.csvWrite row) rs t

theorem csvRecords_map_csvWrite (rs : ResultSet) : csvRecords (rs.map Event.csvWrite) = rs := by
  induction rs with
  | nil => rfl
  | cons r rs ih =>
    simp only [csvRecords, List.map_cons, List.filterMap_cons] at ih ⊢
    rw [ih]

theorem report_csv (name : String) (rs : ResultSet) :
    report "csv" name none rs =
      ([Event.osCreate name, Event.csvWrite header] ++ rs.map Event.csvWrite
        ++ [Event.printf ("Results written to " ++ name ++ "\n"), Event.csvFlush, Event.fileClose],
       0) := by
  unfold report
  rw [if_pos rfl, writeRows_eq]

theorem csvRecords_report_csv (name : String) (rs : ResultSet) :
    csvRecords (report "csv" name none rs).1 = header :: rs := by
  rw [report_csv]
  have hsplit : ∀ a b : List Event, csvRecords (a ++ b) = csvRecords a ++ csvRecords b := by
    intro a b
    simp [csvRecords]
  rw [hsplit, hsplit, csvRecords_map_csvWrite]
  simp [csvRecords]

/-- C5: in CSV mode (the file was created), the records handed to the CSV
writer are the header record `Project ID, Instance, Database Version` followed
by the rows of `results`, one record per row, in the order of `results`. -/
theorem csv_records_header_then_rows (name : String) (rs : ResultSet) :
    csvRecords (report "csv" name none rs).1
        = ["Project ID", "Instance", "Database Version"] :: rs
      ∧ (csvRecords (report "csv" name none rs).1).length = rs.length + 1
      ∧ ∀ i, i < rs.length → (csvRecords (report "csv" name none rs).1)[i + 1]? = rs[i]? := by
  have h := csvRecords_report_csv name rs
  refine ⟨h, ?_, ?_⟩
  · rw [h, List.length_cons]
  · intro i _
    rw [h, List.getElem?_cons_succ]

/-- C5 at the two rows of the scenario of the specification: three records are
handed to the writer, the header and then the two rows. -/
theorem csv_records_header_then_rows_witness :
    csvRecords (report "csv" "cloudsql_version_March2025.csv" none
        [["p1", "db-a", "MYSQL_8_0"], ["p1", "db-b", "POSTGRES_15"]]).1
        = [["Project ID", "Instance", "Database Version"],
            ["p1", "db-a", "MYSQL_8_0"], ["p1", "db-b", "POSTGRES_15"]]
      ∧ (csvRecords (report "csv" "cloudsql_version_March2025.csv" none
          [["p1", "db-a", "MYSQL_8_0"], ["p1", "db-b", "POSTGRES_15"]]).1)[1 + 1]?
        = some ["p1", "db-b", "POSTGRES_15"] :=
  ⟨(csv_records_header_then_rows "cloudsql_version_March2025.csv"
      [["p1", "db-a", "MYSQL_8_0"], ["p1", "db-b", "POSTGRES_15"]]).1,
   (csv_records_header_then_rows "cloudsql_version_March2025.csv"
      [["p1", "db-a", "MYSQL_8_0"], ["p1", "db-b", "POSTGRES_15"]]).2.2 1 (by decide)⟩

theorem appendRows_ok (rs : ResultSet) (t : List Event) (h3 : ∀ r ∈ rs, r.length = 3) :
    appendRows rs t = Except.ok (t ++ rs.map Event.tableAppendRow) := by
  induction rs generalizing t with
  | nil => simp [appendRows]
  | cons v rest ih =>
    have hv : v.length = 3 := h3 v (List.mem_cons_self v rest)
    have hrest : ∀ r ∈ rest, r.length = 3 := fun r hr => h3 r (List.mem_cons_of_mem v hr)
    match v, hv with
    | [a, b, c], _ =>
      simp only [appendRows, List.getElem?_cons_zero, List.getElem?_cons_succ]
      rw [ih _ hrest]
      simp

theorem rowsOfPages_triples (p : String) (pages : List InstancesListResponse) :
    ∀ r ∈ rowsOfPages p pages, r.length = 3 := by
  intro r hr
  simp only [rowsOfPages, rowsOfPage, List.mem_flatMap, List.mem_map] at hr
  obtain ⟨_, _, _, _, rfl⟩ := hr
  rfl

theorem collect_results_triples {σ : Type} (api : σ → String → InstancesListCall × σ) (w : σ)
    (ps : List String) : ∀ r ∈ (collect api w ps).results, r.length = 3 := by
  intro r hr
  rw [collect_eq] at hr
  simp only [allRows, List.mem_flatMap] at hr
  obtain ⟨pr, _, h⟩ := hr
  exact rowsOfPages_triples pr.1 pr.2.pages r h

theorem report_table (fmt name : String) (createErr : Option String) (rs : ResultSet)
    (hfmt : fmt ≠ "csv") (h3 : ∀ r ∈ rs, r.length = 3) :
    report fmt name createErr rs =
      ([Event.tableAppendHeader header] ++ rs.map Event.tableAppendRow ++ [Event.tableRender],
       0) := by
  unfold report
  rw [if_neg hfmt, appendRows_ok rs _ h3]

theorem tableRows_map_tableAppendRow (rs : ResultSet) :
    tableRows (rs.map Event.tableAppendRow) = rs := by
  induction rs with
  | nil => rfl
  | cons r rs ih =>
    simp only [tableRows, List.map_cons, List.filterMap_cons] at ih ⊢
    rw [ih]

theorem tableHeaders_map_tableAppendRow (rs : ResultSet) :
    tableHeaders (rs.map Event.tableAppendRow) = [] := by
  induction rs with
  | nil => rfl
  | cons r rs ih =>
    simp only [tableHeaders, List.map_cons, List.filterMap_cons] at ih ⊢
    rw [ih]

/-- C6: in table mode (any `-output` value other than `csv`), for the `results`
of any run of the loop, the rows appended to the table are the rows of
`results`, one for one and in order, each being
`[projectID, Name, DatabaseVersion]`; the table gets one header,
`Project ID, Instance, Database Version`, which is also the first CSV record. -/
theorem table_rows_are_results {σ : Type} (api : σ → String → InstancesListCall × σ) (w : σ)
    (ps : List String) (fmt name : String) (createErr : Option String) (hfmt : fmt ≠ "csv") :
    tableRows (report fmt name createErr (collect api w ps).results).1
        = (collect api w ps).results
      ∧ (tableRows (report fmt name createErr (collect api w ps).results).1).length
          = (collect api w ps).results.length
      ∧ tableRows (report fmt name createErr (collect api w ps).results).1
          = (ps.zip (requests api w ps)).flatMap (fun pr =>
              pr.2.pages.flatMap (fun page =>
                page.Items.map (fun inst => [pr.1, inst.Name, inst.DatabaseVersion])))
      ∧ tableHeaders (report fmt name createErr (collect api w ps).results).1
          = [["Project ID", "Instance", "Database Version"]]
      ∧ (csvRecords (report "csv" name none (collect api w ps).results).1).head?
          = some ["Project ID", "Instance", "Database Version"] := by
  have hrows : tableRows (report fmt name createErr (collect api w ps).results).1
      = (collect api w ps).results := by
    rw [report_table fmt name createErr _ hfmt (collect_results_triples api w ps)]
    have hsplit : ∀ a b : List Event, tableRows (a ++ b) = tableRows a ++ tableRows b := by
      intro a b
      simp [tableRows]
    rw [hsplit, hsplit, tableRows_map_tableAppendRow]
    simp [tableRows]
  refine ⟨hrows, by rw [hrows], ?_, ?_, ?_⟩
  · rw [hrows, collect_eq]
    rfl
  · rw [report_table fmt name createErr _ hfmt (collect_results_triples api w ps)]
    have hsplit : ∀ a b : List Event, tableHeaders (a ++ b) = tableHeaders a ++ tableHeaders b := by
      intro a b
      simp [tableHeaders]
    rw [hsplit, hsplit, tableHeaders_map_tableAppendRow]
    rfl
  · rw [csvRecords_report_csv]
    rfl

/-- C6 at the scenario of the specification, with `-output table`: the table
gets the two rows of `p1`. -/
theorem table_rows_are_results_witness :
    "table" ≠ "csv"
      ∧ tableRows (report "table" "cloudsql_version_March2025.csv" none
          (collect scenarioApi () ["p1", "p2", "p3"]).results).1
        = [["p1", "db-a", "MYSQL_8_0"], ["p1", "db-b", "POSTGRES_15"]] :=
  ⟨by decide,
   (table_rows_are_results scenarioApi () ["p1", "p2", "p3"] "table"
      "cloudsql_version_March2025.csv" none (by decide)).1.trans (by decide)⟩

theorem createdFiles_append (a b : List Event) :
    createdFiles (a ++ b) = createdFiles a ++ createdFiles b := by
  simp [createdFiles]

theorem createdFiles_map_csvWrite (rs : ResultSet) :
    createdFiles (rs.map Event.csvWrite) = [] := by
  induction rs with
  | nil => rfl
  | cons r rs ih =>
    simp only [createdFiles, List.map_cons, List.filterMap_cons] at ih ⊢
    rw [ih]

theorem createdFiles_map_tableAppendRow (rs : ResultSet) :
    createdFiles (rs.map Event.tableAppendRow) = [] := by
  induction rs with
  | nil => rfl
  | cons r rs ih =>
    simp only [createdFiles, List.map_cons, List.filterMap_cons] at ih ⊢
    rw [ih]

theorem fatalMessages_map_tableAppendRow (rs : ResultSet) :
    fatalMessages (rs.map Event.tableAppendRow) = [] := by
  induction rs with
  | nil => rfl
  | cons r rs ih =>
    simp only [fatalMessages, List.map_cons, List.filterMap_cons] at ih ⊢
    rw [ih]

theorem createdFiles_report_csv (name : String) (createErr : Option String) (rs : ResultSet) :
    createdFiles (report "csv" name createErr rs).1 = [name] := by
  cases createErr with
  | some e => simp [report, createdFiles]
  | none =>
    rw [report_csv, createdFiles_append, createdFiles_append, createdFiles_map_csvWrite]
    simp [createdFiles]

theorem tableRender_not_mem_report_csv (name : String) (createErr : Option String)
    (rs : ResultSet) : Event.tableRender ∉ (report "csv" name createErr rs).1 := by
  cases createErr with
  | some e => simp [report]
  | none =>
    rw [report_csv]
    simp

/-- C10: the run creates the output file (CSV mode) exactly when the `-output`
value is the string `csv`.  For every other value, and the `results` of any run
of the loop, the report is the table: header, one row per result, then the
rendering; no file is created, nothing fatal is logged and the exit code is 0.
For `csv` no table is rendered. -/
theorem csv_mode_iff_output_is_csv {σ : Type} (api : σ → String → InstancesListCall × σ)
    (w : σ) (ps : List String) (fmt name : String) (createErr : Option String) :
    (createdFiles (report fmt name createErr (collect api w ps).results).1 = [name]
        ↔ fmt = "csv")
      ∧ (fmt ≠ "csv" →
          report fmt name createErr (collect api w ps).results
              = ([Event.tableAppendHeader ["Project ID", "Instance", "Database Version"]]
                  ++ (collect api w ps).results.map Event.tableAppendRow
                  ++ [Event.tableRender], 0)
          ∧ Event.tableRender ∈ (report fmt name createErr (collect api w ps).results).1
          ∧ createdFiles (report fmt name createErr (collect api w ps).results).1 = []
          ∧ fatalMessages (report fmt name createErr (collect api w ps).results).1 = []
          ∧ (report fmt name createErr (collect api w ps).results).2 = 0)
      ∧ (fmt = "csv" →
          Event.tableRender ∉ (report fmt name createErr (collect api w ps).results).1) := by
  have htable : fmt ≠ "csv" →
      report fmt name createErr (collect api w ps).results
        = ([Event.tableAppendHeader header]
            ++ (collect api w ps).results.map Event.tableAppendRow
            ++ [Event.tableRender], 0) :=
    fun hfmt => report_table fmt name createErr _ hfmt (collect_results_triples api w ps)
  have hfiles : fmt ≠ "csv" →
      createdFiles (report fmt name createErr (collect api w ps).results).1 = [] := by
    intro hfmt
    rw [htable hfmt, createdFiles_append, createdFiles_append, createdFiles_map_tableAppendRow]
    rfl
  refine ⟨⟨?_, ?_⟩, ?_, ?_⟩
  · intro h
    by_contra hfmt
    rw [hfiles hfmt] at h
    exact List.noConfusion h
  · intro hfmt
    rw [hfmt]
    exact createdFiles_report_csv name createErr _
  · intro hfmt
    refine ⟨htable hfmt, ?_, hfiles hfmt, ?_, ?_⟩
    · rw [htable hfmt]
      simp
    · rw [htable hfmt]
      have hsplit : ∀ a b : List Event,
          fatalMessages (a ++ b) = fatalMessages a ++ fatalMessages b := by
        intro a b
        simp [fatalMessages]
      rw [hsplit, hsplit, fatalMessages_map_tableAppendRow]
      rfl
    · rw [htable hfmt]
  · intro hfmt
    rw [hfmt]
    exact tableRender_not_mem_report_csv name createErr _

/-- C10 at the value `CSV` (upper case): the table is rendered, no file is
created, exit code 0; and at `csv` the file is created. -/
theorem csv_mode_iff_output_is_csv_witness :
    "CSV" ≠ "csv"
      ∧ createdFiles (report "CSV" "cloudsql_version_March2025.csv" none
          (collect scenarioApi () ["p1", "p2", "p3"]).results).1 = []
      ∧ (report "CSV" "cloudsql_version_March2025.csv" none
          (collect scenarioApi () ["p1", "p2", "p3"]).results).2 = 0
      ∧ createdFiles (report "csv" "cloudsql_version_March2025.csv" none
          (collect scenarioApi () ["p1", "p2", "p3"]).results).1
        = ["cloudsql_version_March2025.csv"] :=
  ⟨by decide,
   ((csv_mode_iff_output_is_csv scenarioApi () ["p1", "p2", "p3"] "CSV"
      "cloudsql_version_March2025.csv" none).2.1 (by decide)).2.2.1,
   ((csv_mode_iff_output_is_csv scenarioApi () ["p1", "p2", "p3"] "CSV"
      "cloudsql_version_March2025.csv" none).2.1 (by decide)).2.2.2.2,
   (csv_mode_iff_output_is_csv scenarioApi () ["p1", "p2", "p3"] "csv"
      "cloudsql_version_March2025.csv" none).1.2 rfl⟩

/-! ## Theorems on the file name -/

theorem decimalDigits_four (u : Nat) (h : u < 10000) :
    List.replicate (4 - (decimalDigits (u + 1) u []).length) '0' ++ decimalDigits (u + 1) u []
      = [utod (u / 1000), utod (u / 100 % 10), utod (u / 10 % 10), utod (u % 10)] := by
  by_cases h1 : u < 10
  · have e1 : u / 1000 = 0 := by omega
    have e2 : u / 100 % 10 = 0 := by omega
    have e3 : u / 10 % 10 = 0 := by omega
    have e4 : u % 10 = u := by omega
    simp [decimalDigits, h1, e1, e2, e3, e4, utod]
  · obtain ⟨k, rfl⟩ : ∃ k, u = k + 1 := ⟨u - 1, by omega⟩
    by_cases h2 : k + 1 < 100
    · have e1 : (k + 1) / 1000 = 0 := by omega
      have e2 : (k + 1) / 100 % 10 = 0 := by omega
      have e3 : (k + 1) / 10 % 10 = (k + 1) / 10 := by omega
      have c1 : (k + 1) / 10 < 10 := by omega
      simp [decimalDigits, h1, c1, e1, e2, e3, utod]
    · obtain ⟨j, rfl⟩ : ∃ j, k = j + 2 := ⟨k - 2, by omega⟩
      have c1 : ¬ (j + 2 + 1) / 10 < 10 := by omega
      have d1 : (j + 2 + 1) / 10 / 10 = (j + 2 + 1) / 100 := by omega
      by_cases h3 : j + 2 + 1 < 1000
      · have e1 : (j + 2 + 1) / 1000 = 0 := by omega
        have e2 : (j + 2 + 1) / 100 % 10 = (j + 2 + 1) / 100 := by omega
        have c2 : (j + 2 + 1) / 100 < 10 := by omega
        simp [decimalDigits, h1, c1, d1, c2, e1, e2, utod]
      · have c2 : ¬ (j + 2 + 1) / 100 < 10 := by omega
        have d2 : (j + 2 + 1) / 100 / 10 = (j + 2 + 1) / 1000 := by omega
        have c3 : (j + 2 + 1) / 1000 < 10 := by omega
        simp [decimalDigits, h1, c1, d1, c2, d2, c3, utod]

theorem appendInt_four (y : Int) (h0 : 0 ≤ y) (h1 : y ≤ 9999) :
    appendInt y 4 = [utod (y.toNat / 1000), utod (y.toNat / 100 % 10),
      utod (y.toNat / 10 % 10), utod (y.toNat % 10)] := by
  obtain ⟨u, rfl⟩ : ∃ u : Nat, y = (u : Int) := ⟨y.toNat, by omega⟩
  have hu : u < 10000 := by omega
  unfold appendInt
  have hneg : ¬ ((u : Int) < 0) := by omega
  simp only [Int.natAbs_ofNat, Int.toNat_ofNat, hneg, if_false, List.nil_append]
  exact decimalDigits_four u hu

/-- C8: for a date whose month is one of the twelve months and whose year has
at most four digits (0 to 9999), the CSV file name is `cloudsql_version_`, then
the English name of the month (January, February, ..., December), then the
four decimal digits of the year, then `.csv`. -/
theorem fileName_month_year (t : Time) (hm : 1 ≤ t.month ∧ t.month ≤ 12)
    (hy : 0 ≤ t.year ∧ t.year ≤ 9999) :
    ∃ name,
      ["January", "February", "March", "April", "May", "June", "July", "August", "September",
        "October", "November", "December"][t.month - 1]? = some name
      ∧ fileName t =
          "cloudsql_version_" ++ name
            ++ String.mk [utod (t.year.toNat / 1000), utod (t.year.toNat / 100 % 10),
                utod (t.year.toNat / 10 % 10), utod (t.year.toNat % 10)]
            ++ ".csv" := by
  have hlt : t.month - 1 < longMonthNames.length := by
    show t.month - 1 < 12
    omega
  refine ⟨longMonthNames[t.month - 1], List.getElem?_eq_getElem hlt, ?_⟩
  unfold fileName formatJanuary2006 MonthString
  rw [if_pos hm, appendInt_four t.year hy.1 hy.2]
  simp only [List.getD_eq_getElem?_getD, List.getElem?_eq_getElem hlt, Option.getD_some,
    String.append_assoc]

/-- C8 at March 2025: the file name is `cloudsql_version_March2025.csv`. -/
theorem fileName_month_year_witness :
    fileName { year := 2025, month := 3 } = "cloudsql_version_March2025.csv" := by
  obtain ⟨name, h1, h2⟩ :=
    fileName_month_year { year := 2025, month := 3 } (by decide) (by decide)
  have h3 : name = "March" := (Option.some.inj h1).symm
  rw [h2, h3]
  decide

/-! ## Theorems on the project list -/

theorem genSplitLoop_ne_nil (sep : Char) (n : Nat) (s : List Char) :
    genSplitLoop sep n s ≠ [] := by
  cases n with
  | zero => simp [genSplitLoop]
  | succ n =>
    unfold genSplitLoop
    cases Index s sep <;> simp

theorem Index_cons_self (sep : Char) (s : List Char) : Index (sep :: s) sep = some 0 := by
  simp [Index]

theorem Index_cons_ne (sep c : Char) (s : List Char) (h : c ≠ sep) :
    Index (c :: s) sep = (Index s sep).map (fun m => m + 1) := by
  unfold Index
  rw [List.indexOf_cons_ne s h]
  by_cases hlt : List.indexOf sep s < s.length
  · simp [hlt]
  · simp [hlt]

theorem genSplitLoop_cons_self (sep : Char) (n : Nat) (s : List Char) :
    genSplitLoop sep (n + 1) (sep :: s) = [] :: genSplitLoop sep n s := by
  simp [genSplitLoop, Index_cons_self]

theorem genSplitLoop_cons_ne (sep c : Char) (n : Nat) (s : List Char) (h : c ≠ sep) :
    ∃ p ps, genSplitLoop sep n s = p :: ps ∧ genSplitLoop sep n (c :: s) = (c :: p) :: ps := by
  cases n with
  | zero => exact ⟨s, [], rfl, rfl⟩
  | succ n =>
    unfold genSplitLoop
    rw [Index_cons_ne sep c s h]
    cases Index s sep with
    | none => exact ⟨s, [], rfl, rfl⟩
    | some m => exact ⟨s.take m, genSplitLoop sep n (s.drop (m + 1)), rfl, rfl⟩

theorem Split_cons_self (sep : Char) (s : List Char) :
    Split (sep :: s) sep = [] :: Split s sep := by
  unfold Split Count
  rw [List.count_cons_self, genSplitLoop_cons_self]

theorem Split_cons_ne (sep c : Char) (s : List Char) (h : c ≠ sep) :
    ∃ p ps, Split s sep = p :: ps ∧ Split (c :: s) sep = (c :: p) :: ps := by
  unfold Split Count
  rw [List.count_cons_of_ne h.symm]
  exact genSplitLoop_cons_ne sep c _ s h

theorem Split_append_sep (sep : Char) (a b : List Char) :
    Split (a ++ sep :: b) sep = Split a sep ++ Split b sep := by
  induction a with
  | nil =>
    rw [List.nil_append, Split_cons_self]
    rfl
  | cons c a ih =>
    by_cases h : c = sep
    · subst h
      rw [List.cons_append, Split_cons_self, Split_cons_self, ih]
      rfl
    · obtain ⟨p, ps, h1, h2⟩ := Split_cons_ne sep c a h
      obtain ⟨q, qs, h3, h4⟩ := Split_cons_ne sep c (a ++ sep :: b) h
      rw [List.cons_append, h4, h2]
      rw [ih, h1] at h3
      simp only [List.cons_append, List.cons.injEq] at h3
      rw [← h3.1, ← h3.2]
      rfl

theorem TrimSpace_of_all_space (s : List Char) (h : ∀ c ∈ s, isSpace c = true) :
    TrimSpace s = [] := by
  unfold TrimSpace
  rw [List.dropWhile_eq_nil_iff.mpr h]
  rfl

theorem applyLimit_singleton (limit : Int) (p : String) (h : limit < 0 ∨ 1 ≤ limit) :
    applyLimit limit [p] = [p] := by
  unfold applyLimit
  rw [if_neg]
  simp only [List.length_singleton, Nat.cast_one]
  omega

/-- C9: the project list parsed from the text of the listing command is never
empty.  When the text is empty or all white space, the list is the single empty
string, and then with a negative limit or a limit of at least 1 exactly one
`Instances.List` call is made, with the empty project ID.  A blank line inside
the trimmed text yields an empty project ID between the IDs of the lines before
and after it, and with a negative limit that empty ID is requested too. -/
theorem parseProjectIDs_never_empty :
    (∀ out : String, parseProjectIDs out ≠ [])
      ∧ (∀ out : String, (∀ c ∈ out.data, isSpace c = true) →
          parseProjectIDs out = [""]
          ∧ ∀ limit : Int, (limit < 0 ∨ 1 ≤ limit) →
              ∀ (σ : Type) (api : σ → String → InstancesListCall × σ) (w : σ),
                listCalls (collect api w (applyLimit limit (parseProjectIDs out))).trace = [""])
      ∧ (∀ (out : String) (x y : List Char), TrimSpace out.data = x ++ '\n' :: '\n' :: y →
          parseProjectIDs out
              = (Split x '\n').map String.mk ++ "" :: (Split y '\n').map String.mk
          ∧ ∀ limit : Int, limit < 0 →
              ∀ (σ : Type) (api : σ → String → InstancesListCall × σ) (w : σ),
                "" ∈ listCalls (collect api w (applyLimit limit (parseProjectIDs out))).trace) := by
  refine ⟨?_, ?_, ?_⟩
  · intro out h
    unfold parseProjectIDs Split at h
    exact genSplitLoop_ne_nil _ _ _ (List.map_eq_nil_iff.mp h)
  · intro out hsp
    have hparse : parseProjectIDs out = [""] := by
      unfold parseProjectIDs
      rw [TrimSpace_of_all_space _ hsp]
      rfl
    refine ⟨hparse, ?_⟩
    intro limit hl σ api w
    rw [listCalls_collect, hparse]
    exact applyLimit_singleton limit "" hl
  · intro out x y hxy
    have hparse : parseProjectIDs out
        = (Split x '\n').map String.mk ++ "" :: (Split y '\n').map String.mk := by
      unfold parseProjectIDs
      rw [hxy, Split_append_sep, Split_cons_self, List.map_append, List.map_cons]
    refine ⟨hparse, ?_⟩
    intro limit hl σ api w
    rw [listCalls_collect]
    unfold applyLimit
    rw [if_neg (by omega), hparse]
    simp

/-- C9 at concrete texts: two spaces, a newline and a space parse to the single
empty project ID, which is requested once under limit -1; `a`, blank line, `b`
parses to the three IDs `a`, empty, `b`. -/
theorem parseProjectIDs_never_empty_witness :
    parseProjectIDs "  \n " = [""]
      ∧ listCalls (collect scenarioApi () (applyLimit (-1) (parseProjectIDs "  \n "))).trace = [""]
      ∧ parseProjectIDs "a\n\nb" = ["a", "", "b"] :=
  ⟨(parseProjectIDs_never_empty.2.1 "  \n " (by decide)).1,
   (parseProjectIDs_never_empty.2.1 "  \n " (by decide)).2 (-1) (by decide) Unit scenarioApi (),
   ((parseProjectIDs_never_empty.2.2 "a\n\nb" ['a'] ['b'] (by decide)).1).trans (by decide)⟩

end CloudSqlV
